import Mathlib

/-!
Verification of the Antigravity Manager core against its specification.

The definitions below are a shallow embedding of the TypeScript source:

* `Antigravity.Store`        — `CloudAccountRepo` (src/ipc/database/cloudHandler.ts);
* `Antigravity.TokenManager` — `TokenManagerService` (src/server/modules/proxy,
  token-manager service);
* `Antigravity.Proxy`        — the retry loop of `ProxyService.handleAnthropicMessages`
  / `handleChatCompletions` and `ProxyService.shouldRetry`;
* `Antigravity.AutoSwitch`   — `AutoSwitchService` (src/services/AutoSwitchService.ts);
* `Antigravity.Cache`        — `SemanticCacheManager` / `SemanticCacheRepo`.

Conventions: JavaScript numbers carrying Unix times are `Int`; quota
percentages and health scores are `ℚ` (the claims under study do not depend
on floating-point rounding); JavaScript string falsiness (`undefined`, `""`)
is modelled explicitly where the source relies on it; the SQLite `accounts`
table is a list of decrypted rows (encryption at rest is orthogonal to the
claims and is not modelled); external HTTP calls (token refresh, project-id
discovery, embedding fetch) are oracle arguments of type `Except Unit _`.
-/

namespace Antigravity

/-- JavaScript truthiness of a possibly-absent string: `undefined` and `""`
are falsy, everything else truthy. -/
def jsTruthy : Option String → Bool
  | none => false
  | some s => !s.isEmpty

/-- `needle` occurs at the start of `hay` (character lists). -/
def isPrefixCL : List Char → List Char → Bool
  | [], _ => true
  | _ :: _, [] => false
  | c :: cs, d :: ds => c == d && isPrefixCL cs ds

/-- `needle` occurs somewhere in `hay` (character lists), as in
JavaScript `String.prototype.includes`. -/
def hasSubCL (needle : List Char) : List Char → Bool
  | [] => isPrefixCL needle []
  | c :: rest => isPrefixCL needle (c :: rest) || hasSubCL needle rest

/-- JavaScript `hay.includes(needle)`. -/
def strIncludes (hay needle : String) : Bool :=
  hasSubCL needle.toList hay.toList

/-- `s.toLowerCase()` (character-wise; the identifiers involved are ASCII). -/
def lowerStr (s : String) : String :=
  String.mk (s.data.map Char.toLower)

/-- `s.startsWith(pre)`. -/
def startsWithStr (s pre : String) : Bool :=
  isPrefixCL pre.data s.data

/-- Drop the first `n` characters of `s`. -/
def dropStr (s : String) (n : Nat) : String :=
  String.mk (s.data.drop n)

/-- `s.trim()`: strip leading and trailing whitespace. -/
def trimStr (s : String) : String :=
  String.mk (((s.data.dropWhile Char.isWhitespace).reverse.dropWhile
    Char.isWhitespace).reverse)

/-- The part of an email before the first `@`, as in `email.split('@')[0]`. -/
def emailLocalPart (email : String) : String :=
  String.mk (email.data.takeWhile (fun c => c != '@'))

/-- The `token` sub-record of an account as persisted in the store
(`token_json`, decrypted). -/
structure StoredToken where
  access_token : String
  refresh_token : String
  expires_in : Int
  expiry_timestamp : Int
  token_type : String := "Bearer"
  project_id : Option String := none
  session_id : Option String := none
deriving DecidableEq, Repr, Inhabited

/-- One entry of `quota.models`: per-model quota state. -/
structure ModelQuota where
  percentage : ℚ
  resetTime : String := ""
deriving DecidableEq, Repr, Inhabited

/-- The `quota` sub-record: canonical model identifier → quota state.
JavaScript objects iterate in insertion order, so a list of pairs. -/
structure QuotaData where
  models : List (String × ModelQuota)
deriving DecidableEq, Repr, Inhabited

/-- A durable account row (decrypted view of one row of the `accounts`
table), matching the `CloudAccount` shape used by `CloudAccountRepo`. -/
structure CloudAccount where
  id : String
  provider : String
  email : String
  name : Option String := none
  avatar_url : Option String := none
  token : Option StoredToken := none
  quota : Option QuotaData := none
  created_at : Int := 0
  last_used : Int := 0
  status : String := "active"
  is_active : Bool := false
  selected_models : Option (List String) := none
deriving DecidableEq, Repr, Inhabited

namespace Store

/-- `UPDATE accounts SET is_active = 0` — demote every row. -/
def demoteAll (rows : List CloudAccount) : List CloudAccount :=
  rows.map (fun r => { r with is_active := false })

/-- `CloudAccountRepo.setActive`: one transaction that demotes all rows and
then promotes the row with the given id
(`UPDATE accounts SET is_active = 1 WHERE id = ?`). -/
def setActive (rows : List CloudAccount) (id : String) : List CloudAccount :=
  (demoteAll rows).map (fun r => if r.id = id then { r with is_active := true } else r)

/-- `INSERT OR REPLACE INTO accounts ...` keyed by the primary key `id`:
a conflicting row is deleted and the new row inserted. -/
def upsertRow (rows : List CloudAccount) (a : CloudAccount) : List CloudAccount :=
  rows.filter (fun r => r.id ≠ a.id) ++ [a]

/-- `CloudAccountRepo.addAccount`: inside one transaction, if the incoming
account is active first demote every row, then upsert the row (the stored
status is `account.status || 'active'`). -/
def addAccount (rows : List CloudAccount) (a : CloudAccount) : List CloudAccount :=
  let rows1 := if a.is_active then demoteAll rows else rows
  upsertRow rows1 { a with status := if a.status = "" then "active" else a.status }

/-- Number of rows with `is_active = true`. -/
def countActive (rows : List CloudAccount) : Nat :=
  rows.countP (fun r => r.is_active)

end Store

/-- An operation on the credential store touching the active flag. -/
inductive StoreOp where
  | add (a : CloudAccount)
  | setActive (id : String)
deriving Repr

/-- Interpret one store operation on the accounts table. -/
def applyOp (rows : List CloudAccount) : StoreOp → List CloudAccount
  | .add a => Store.addAccount rows a
  | .setActive id => Store.setActive rows id

/-- Run a sequence of store operations from the empty table. -/
def runOps (ops : List StoreOp) : List CloudAccount :=
  ops.foldl applyOp []

namespace Store

theorem ids_demoteAll (rows : List CloudAccount) :
    (demoteAll rows).map CloudAccount.id = rows.map CloudAccount.id := by
  simp [demoteAll, List.map_map, Function.comp]

theorem ids_setActive (rows : List CloudAccount) (id : String) :
    (setActive rows id).map CloudAccount.id = rows.map CloudAccount.id := by
  simp only [setActive, List.map_map]
  rw [← ids_demoteAll rows]
  apply List.map_congr_left
  intro r _
  by_cases h : r.id = id <;> simp [h]

theorem countActive_demoteAll (rows : List CloudAccount) :
    countActive (demoteAll rows) = 0 := by
  simp [countActive, demoteAll, List.countP_map, Function.comp, List.countP_eq_zero]

theorem countActive_le_of_nodup_setActive (rows : List CloudAccount) (aid : String)
    (h : (rows.map CloudAccount.id).Nodup) :
    countActive (setActive rows aid) ≤ 1 := by
  have hids : ((demoteAll rows).map CloudAccount.id).Nodup := by
    rw [ids_demoteAll]; exact h
  have hall : ∀ r ∈ demoteAll rows, r.is_active = false := by
    intro r hr
    obtain ⟨x, _, hx⟩ := List.mem_map.mp hr
    subst hx
    rfl
  unfold setActive countActive
  rw [List.countP_map]
  have heq : List.countP
      ((fun r => r.is_active) ∘ (fun r => if r.id = aid then { r with is_active := true } else r))
      (demoteAll rows) = List.countP (fun r => decide (r.id = aid)) (demoteAll rows) := by
    apply List.countP_congr
    intro r hr
    by_cases hid : r.id = aid
    · simp [Function.comp, hid]
    · simp [Function.comp, hid, hall r hr]
  rw [heq]
  have hcnt : List.countP (fun r => decide (r.id = aid)) (demoteAll rows)
      = List.count aid ((demoteAll rows).map CloudAccount.id) := by
    rw [List.count, List.countP_map]
    apply List.countP_congr
    intro r _
    by_cases hid : r.id = aid <;> simp [Function.comp, hid]
  rw [hcnt]
  exact List.nodup_iff_count_le_one.mp hids aid

theorem nodup_ids_upsertRow (rows : List CloudAccount) (a : CloudAccount)
    (h : (rows.map CloudAccount.id).Nodup) :
    ((upsertRow rows a).map CloudAccount.id).Nodup := by
  unfold upsertRow
  rw [List.map_append]
  apply List.Nodup.append
  · exact h.sublist ((List.filter_sublist rows).map CloudAccount.id)
  · simp
  · intro x hx hy
    simp only [List.map_cons, List.map_nil, List.mem_singleton] at hy
    subst hy
    obtain ⟨r, hr, hrx⟩ := List.mem_map.mp hx
    have hmem := List.of_mem_filter hr
    rw [← hrx] at hmem
    simp at hmem

theorem countActive_append (xs ys : List CloudAccount) :
    countActive (xs ++ ys) = countActive xs + countActive ys := by
  simp [countActive, List.countP_append]

theorem countActive_filter_le (rows : List CloudAccount) (p : CloudAccount → Bool) :
    countActive (rows.filter p) ≤ countActive rows := by
  unfold countActive
  induction rows with
  | nil => simp
  | cons r rs ih =>
    by_cases hp : p r = true
    · by_cases ha : r.is_active = true <;>
        simp [List.filter_cons, hp, List.countP_cons, ha] <;> omega
    · by_cases ha : r.is_active = true <;>
        simp [List.filter_cons, hp, List.countP_cons, ha] <;> omega

/-- Invariant carried through every store operation: ids are unique (the
primary key) and at most one row is active. -/
def Inv (rows : List CloudAccount) : Prop :=
  (rows.map CloudAccount.id).Nodup ∧ countActive rows ≤ 1

theorem inv_setActive (rows : List CloudAccount) (id : String) (h : Inv rows) :
    Inv (setActive rows id) := by
  constructor
  · rw [ids_setActive]; exact h.1
  · exact countActive_le_of_nodup_setActive rows id h.1

theorem inv_addAccount (rows : List CloudAccount) (a : CloudAccount) (h : Inv rows) :
    Inv (addAccount rows a) := by
  unfold addAccount
  set a' : CloudAccount := { a with status := if a.status = "" then "active" else a.status }
    with ha'
  have haact : a'.is_active = a.is_active := rfl
  cases hact : a.is_active with
  | true =>
    constructor
    · simp only [hact, if_pos]
      apply nodup_ids_upsertRow
      rw [ids_demoteAll]; exact h.1
    · simp only [hact, if_pos]
      unfold upsertRow
      rw [countActive_append]
      have h1 : countActive ((demoteAll rows).filter (fun r => r.id ≠ a'.id)) = 0 := by
        have := countActive_filter_le (demoteAll rows) (fun r => r.id ≠ a'.id)
        rw [countActive_demoteAll] at this
        omega
      have h2 : countActive [a'] ≤ 1 := by
        unfold countActive
        rw [List.countP_cons]
        simp only [List.countP_nil]
        split <;> omega
      omega
  | false =>
    constructor
    · simp only [hact, Bool.false_eq_true, if_false]
      exact nodup_ids_upsertRow rows a' h.1
    · simp only [hact, Bool.false_eq_true, if_false]
      unfold upsertRow
      rw [countActive_append]
      have h1 : countActive (rows.filter (fun r => r.id ≠ a'.id)) ≤ 1 :=
        le_trans (countActive_filter_le rows _) h.2
      have h2 : countActive [a'] = 0 := by
        unfold countActive
        simp [List.countP_cons, haact, hact]
      omega

theorem inv_runOps (ops : List StoreOp) : Inv (runOps ops) := by
  unfold runOps
  have main : ∀ (l : List StoreOp) (rows : List CloudAccount),
      Inv rows → Inv (l.foldl applyOp rows) := by
    intro l
    induction l with
    | nil => intro rows h; exact h
    | cons op rest ih =>
      intro rows h
      cases op with
      | add a => exact ih _ (inv_addAccount rows a h)
      | setActive id => exact ih _ (inv_setActive rows id h)
  exact main ops [] ⟨List.nodup_nil, by simp [countActive]⟩

end Store

/-- Claim C1: for every sequence of `add(account)` and `setActive(id)`
operations on the credential store, at most one stored account has
`is_active = true` in any observable state — `setActive` demotes all rows
and promotes one id in one transaction, and `addAccount` with
`is_active = true` clears every other row's active flag inside the same
transaction as the upsert. -/
theorem c1_active_singleton (ops : List StoreOp) :
    Store.countActive (runOps ops) ≤ 1 :=
  (Store.inv_runOps ops).2

namespace TokenManager

/-- In-memory token entry of `TokenManagerService` (interface `TokenData`). -/
structure TokenData where
  account_id : String
  email : String
  provider : String
  access_token : String
  refresh_token : String
  expires_in : Int
  expiry_timestamp : Int
  project_id : Option String := none
  session_id : Option String := none
  selected_models : Option (List String) := none
deriving DecidableEq, Repr, Inhabited

/-- `convertAccountToToken`: accounts without a token are skipped;
`project_id: account.token.project_id || undefined` maps a falsy (absent or
empty) project id to `undefined`. The random `generateSessionId()` fallback
is abstracted away (no claim depends on the session id value). -/
def convertAccountToToken (a : CloudAccount) : Option TokenData :=
  match a.token with
  | none => none
  | some t =>
    some { account_id := a.id
           email := a.email
           provider := a.provider
           access_token := t.access_token
           refresh_token := t.refresh_token
           expires_in := t.expires_in
           expiry_timestamp := t.expiry_timestamp
           project_id := if jsTruthy t.project_id then t.project_id else none
           session_id := t.session_id
           selected_models := a.selected_models }

/-- Mutable state of `TokenManagerService`: the round-robin index, the
in-memory token map (a JavaScript `Map` iterates in insertion order, hence a
list keyed by `account_id`), and the cooldown map keyed by email
(timestamps in milliseconds). -/
structure TMState where
  currentIndex : Nat
  tokens : List TokenData
  cooldowns : List (String × Int)
deriving DecidableEq, Repr, Inhabited

/-- `this.cooldowns.get(email)`. -/
def cooldownLookup (cds : List (String × Int)) (email : String) : Option Int :=
  (cds.find? (fun p => p.1 == email)).map (fun p => p.2)

/-- `const cooldownUntil = cooldowns.get(email); !cooldownUntil || cooldownUntil <= now`
(`!0` is truthy in JavaScript, hence the explicit zero case). -/
def isNotCooldown (cds : List (String × Int)) (now : Int) (email : String) : Bool :=
  match cooldownLookup cds email with
  | none => true
  | some t => t == 0 || decide (t ≤ now)

/-- `m.replace(/^models\//, '').toLowerCase()`. -/
def cleanModelId (m : String) : String :=
  lowerStr (if startsWithStr m "models/" then dropStr m 7 else m)

/-- The model filter applied to each candidate: when a model is requested
(JavaScript-truthy) and the account has a non-empty `selected_models`, the
normalised requested model must match some normalised element. -/
def isModelAllowed (requested : Option String) (d : TokenData) : Bool :=
  match requested with
  | none => true
  | some r =>
    if r.isEmpty then true
    else
      match d.selected_models with
      | none => true
      | some sels =>
        if sels.length = 0 then true
        else sels.any (fun sm => cleanModelId sm == cleanModelId r)

/-- The candidate filter of `getNextToken`: no active cooldown and model
allowed. -/
def validTokens (s : TMState) (now : Int) (requested : Option String) : List TokenData :=
  s.tokens.filter (fun d => isNotCooldown s.cooldowns now d.email && isModelAllowed requested d)

/-- A persistent write issued against the store. -/
inductive StoreWrite where
  | updateToken (id : String) (token : StoredToken)
deriving DecidableEq, Repr

/-- `CloudAccountRepo.getAccount(id)` (`SELECT * FROM accounts WHERE id = ?`). -/
def getAccountRow (db : List CloudAccount) (aid : String) : Option CloudAccount :=
  db.find? (fun a => a.id == aid)

/-- `saveRefreshedToken`: re-read the account row; if it exists and has a
token, persist the token with the refreshed fields merged in. -/
def saveRefreshedToken (db : List CloudAccount) (aid : String) (td : TokenData) :
    List StoreWrite :=
  match getAccountRow db aid with
  | some acc =>
    match acc.token with
    | some t =>
      [StoreWrite.updateToken aid
        { t with access_token := td.access_token
                 expires_in := td.expires_in
                 expiry_timestamp := td.expiry_timestamp }]
    | none => []
  | none => []

/-- `saveProjectId`: re-read the account row; if it exists and has a token,
persist the token with `project_id` replaced. -/
def saveProjectId (db : List CloudAccount) (aid : String) (projectId : String) :
    List StoreWrite :=
  match getAccountRow db aid with
  | some acc =>
    match acc.token with
    | some t => [StoreWrite.updateToken aid { t with project_id := some projectId }]
    | none => []
  | none => []

/-- Result of `GoogleAPIService.refreshAccessToken`. -/
structure RefreshedToken where
  access_token : String
  expires_in : Int
deriving DecidableEq, Repr

/-- The token-refresh block of `getNextToken`: when
`nowSeconds >= expiry_timestamp - 300`, exchange the refresh token; on
success update the in-memory fields, set
`expiry_timestamp = nowSeconds + expires_in` and persist via
`saveRefreshedToken`; on failure keep the expiring token. -/
def refreshStage (db : List CloudAccount) (nowSeconds : Int) (aid : String)
    (td : TokenData) (refreshO : Except Unit RefreshedToken) :
    TokenData × List StoreWrite :=
  if nowSeconds ≥ td.expiry_timestamp - 300 then
    match refreshO with
    | .ok nt =>
      let td' := { td with access_token := nt.access_token
                           expires_in := nt.expires_in
                           expiry_timestamp := nowSeconds + nt.expires_in }
      (td', saveRefreshedToken db aid td')
    | .error _ => (td, [])
  else (td, [])

/-- `!tokenData.project_id` (absent or empty string). -/
def projectIdMissing (p : Option String) : Bool :=
  !jsTruthy p

/-- `cloud-code-<local part of the email>`. -/
def fallbackProjectId (email : String) : String :=
  "cloud-code-" ++ emailLocalPart email

/-- The project-id discovery block of `getNextToken`: when the project id is
falsy and the provider is `google` or `anthropic`, call `fetchProjectId`; a
truthy result is stored in memory and persisted via `saveProjectId`; a falsy
result or a thrown error sets the deterministic fallback in memory only. -/
def projectStage (db : List CloudAccount) (aid : String) (td : TokenData)
    (projO : Except Unit (Option String)) : TokenData × List StoreWrite :=
  if projectIdMissing td.project_id && (td.provider == "google" || td.provider == "anthropic") then
    match projO with
    | .ok r =>
      if jsTruthy r then
        let realId := r.getD ""
        ({ td with project_id := some realId }, saveProjectId db aid realId)
      else
        ({ td with project_id := some (fallbackProjectId td.email) }, [])
    | .error _ => ({ td with project_id := some (fallbackProjectId td.email) }, [])
  else (td, [])

/-- `provider.startsWith('local-')`. -/
def startsWithLocal (provider : String) : Bool :=
  startsWithStr provider "local-"

/-- The selection branch of `getNextToken`: if the database's active account
is a local provider and present in the in-memory map, pin selection to it
(the round-robin index is untouched); otherwise round-robin over the
filtered candidates, advancing the index by one. Returns
`(accountId, tokenData, new round-robin index)`. -/
def selectCandidate (db : List CloudAccount) (tokens0 valid : List TokenData)
    (currentIndex : Nat) : String × TokenData × Nat :=
  let rr : String × TokenData × Nat :=
    let d := valid.getD (currentIndex % valid.length) default
    (d.account_id, d, currentIndex + 1)
  match db.find? (fun a => a.is_active) with
  | some a =>
    if startsWithLocal a.provider then
      match tokens0.find? (fun d => d.account_id == a.id) with
      | some d => (a.id, d, currentIndex)
      | none => rr
    else rr
  | none => rr

/-- The token view returned by `getNextToken` (the `token` field of the
returned `CloudAccount` literal). -/
structure RoutedToken where
  access_token : String
  refresh_token : String
  expires_in : Int
  expiry_timestamp : Int
  project_id : Option String
  session_id : Option String
deriving DecidableEq, Repr

/-- The account view returned by `getNextToken`. -/
structure RoutedAccount where
  id : String
  email : String
  provider : String
  token : RoutedToken
deriving DecidableEq, Repr

/-- Build the returned account view from the (possibly updated) token data. -/
def routedOf (aid : String) (td : TokenData) : RoutedAccount :=
  { id := aid
    email := td.email
    provider := td.provider
    token := { access_token := td.access_token
               refresh_token := td.refresh_token
               expires_in := td.expires_in
               expiry_timestamp := td.expiry_timestamp
               project_id := td.project_id
               session_id := td.session_id } }

/-- `this.tokens.set(accountId, tokenData)` (and the in-place mutations of
the entry referenced by the map): replace the entry keyed `aid`. -/
def updateTokensMap (tokens : List TokenData) (aid : String) (td : TokenData) :
    List TokenData :=
  tokens.map (fun d => if d.account_id == aid then td else d)

/-- `TokenManagerService.getNextToken(requestedModel?)`.

`now` is `Date.now()` in milliseconds; `refreshO` and `projO` are the
outcomes of the two external calls the routine may make. Returns the routed
account (or `null`), the updated manager state, and the store writes issued. -/
def getNextToken (s : TMState) (db : List CloudAccount) (now : Int)
    (requested : Option String) (refreshO : Except Unit RefreshedToken)
    (projO : Except Unit (Option String)) :
    Option RoutedAccount × TMState × List StoreWrite :=
  let tokens0 := if s.tokens.isEmpty then db.filterMap convertAccountToToken else s.tokens
  if tokens0.isEmpty then (none, { s with tokens := tokens0 }, [])
  else
    let nowSeconds := Int.fdiv now 1000
    let valid := tokens0.filter
      (fun d => isNotCooldown s.cooldowns now d.email && isModelAllowed requested d)
    if valid.isEmpty then (none, { s with tokens := tokens0 }, [])
    else
      let sel := selectCandidate db tokens0 valid s.currentIndex
      let aid := sel.1
      let td0 := sel.2.1
      let newIndex := sel.2.2
      let r1 := refreshStage db nowSeconds aid td0 refreshO
      let r2 := projectStage db aid r1.1 projO
      let td2 := r2.1
      (some (routedOf aid td2),
       { currentIndex := newIndex, tokens := updateTokensMap tokens0 aid td2,
         cooldowns := s.cooldowns },
       r1.2 ++ r2.2)

/-- `this.cooldowns.set(email, until)`: replace in place when the key
exists, append otherwise. -/
def setCooldown (cds : List (String × Int)) (email : String) (until_ : Int) :
    List (String × Int) :=
  if cds.any (fun p => p.1 == email) then
    cds.map (fun p => if p.1 == email then (email, until_) else p)
  else cds ++ [(email, until_)]

/-- `markAsRateLimited(email)`: 5-minute cooldown from now
(`Date.now() + 5 * 60 * 1000`). -/
def markAsRateLimited (s : TMState) (now : Int) (email : String) : TMState :=
  { s with cooldowns := setCooldown s.cooldowns email (now + 5 * 60 * 1000) }

/-- The refresh block never changes the identity fields of the entry
(account id, email, provider, selected models). -/
theorem refreshStage_preserves (db : List CloudAccount) (ns : Int) (aid : String)
    (td : TokenData) (o : Except Unit RefreshedToken) :
    ((refreshStage db ns aid td o).1).account_id = td.account_id ∧
    ((refreshStage db ns aid td o).1).email = td.email ∧
    ((refreshStage db ns aid td o).1).provider = td.provider ∧
    ((refreshStage db ns aid td o).1).selected_models = td.selected_models := by
  unfold refreshStage
  split
  · cases o with
    | ok nt => exact ⟨rfl, rfl, rfl, rfl⟩
    | error e => exact ⟨rfl, rfl, rfl, rfl⟩
  · exact ⟨rfl, rfl, rfl, rfl⟩

/-- The project-id block never changes the identity fields of the entry. -/
theorem projectStage_preserves (db : List CloudAccount) (aid : String)
    (td : TokenData) (o : Except Unit (Option String)) :
    ((projectStage db aid td o).1).account_id = td.account_id ∧
    ((projectStage db aid td o).1).email = td.email ∧
    ((projectStage db aid td o).1).provider = td.provider ∧
    ((projectStage db aid td o).1).selected_models = td.selected_models := by
  unfold projectStage
  split
  · cases o with
    | ok r =>
      by_cases hr : jsTruthy r = true <;> simp [hr]
    | error e => exact ⟨rfl, rfl, rfl, rfl⟩
  · exact ⟨rfl, rfl, rfl, rfl⟩

end TokenManager

/-- Claim C3: the model filter of `getNextToken` never excludes an account
whose `selected_models` is absent or empty; an account with a non-empty
`selected_models` passes the filter iff the requested model — with an
optional `models/` prefix stripped and case-folded, on both sides — equals
some element of that list. -/
theorem c3_model_filter (m : String) (d : TokenManager.TokenData)
    (hm : m.isEmpty = false) :
    ((d.selected_models = none ∨ d.selected_models = some []) →
      TokenManager.isModelAllowed (some m) d = true) ∧
    (∀ sels, d.selected_models = some sels → sels ≠ [] →
      (TokenManager.isModelAllowed (some m) d = true ↔
        ∃ sm ∈ sels, TokenManager.cleanModelId sm = TokenManager.cleanModelId m)) := by
  constructor
  · intro h
    cases h with
    | inl h => simp [TokenManager.isModelAllowed, hm, h]
    | inr h => simp [TokenManager.isModelAllowed, hm, h]
  · intro sels hsels hne
    have hlen : sels.length ≠ 0 := by
      intro h0
      exact hne (List.length_eq_zero.mp h0)
    simp [TokenManager.isModelAllowed, hm, hsels, hlen, List.any_eq_true]

/-- Witness for C3 at a concrete account: `selected_models = ["gemini-2.5-pro"]`
matches the request `models/Gemini-2.5-PRO` and nothing else. -/
theorem c3_model_filter_witness :
    TokenManager.isModelAllowed (some "models/Gemini-2.5-PRO")
      { account_id := "A", email := "a@x", provider := "google",
        access_token := "t", refresh_token := "r", expires_in := 3600,
        expiry_timestamp := 0, selected_models := some ["gemini-2.5-pro"] } = true := by
  have h := c3_model_filter "models/Gemini-2.5-PRO"
    { account_id := "A", email := "a@x", provider := "google",
      access_token := "t", refresh_token := "r", expires_in := 3600,
      expiry_timestamp := 0, selected_models := some ["gemini-2.5-pro"] }
    (by decide)
  exact ((h.2 ["gemini-2.5-pro"] rfl (by decide)).mpr
    ⟨"gemini-2.5-pro", by decide, by decide⟩)

namespace TokenManager

/-- C5 concrete account: its token is 300 seconds from expiry (sharp
boundary) and its row is present in the store. -/
def c5tok : StoredToken :=
  { access_token := "old"
    refresh_token := "r"
    expires_in := 3600
    expiry_timestamp := 300
    project_id := some "p" }

def c5td : TokenData :=
  { account_id := "a1"
    email := "a@x"
    provider := "google"
    access_token := "old"
    refresh_token := "r"
    expires_in := 3600
    expiry_timestamp := 300
    project_id := some "p" }

def c5acc : CloudAccount :=
  { id := "a1"
    provider := "google"
    email := "a@x"
    token := some c5tok }

end TokenManager

/-- Counterexample to C5 as stated: at `nowSeconds = 0` the chosen token
expires in exactly 300 seconds — not *less* than 300 — yet the code
(`nowSeconds >= expiry_timestamp - 300`) refreshes it: the returned access
token is the exchanged one, not the stored one. -/
theorem c5_counterexample :
    TokenManager.c5td.expiry_timestamp - (0 : Int) = 300 ∧
    TokenManager.c5td.access_token = "old" ∧
    ((TokenManager.refreshStage [TokenManager.c5acc] 0 "a1" TokenManager.c5td
      (.ok { access_token := "new", expires_in := 3600 })).1).access_token = "new" := by
  refine ⟨by decide, by decide, by decide⟩

/-- Claim C5 (amended: the refresh threshold is *at most* 300 seconds to
expiry, i.e. `nowSeconds ≥ expiry_timestamp − 300`, boundary included): in
`getNext`, exactly when the chosen token is within the threshold, the
refresh token is exchanged, `access_token` and `expires_in` are updated,
`expiry_timestamp` becomes `nowSeconds + expires_in`, and the merged token
is persisted via `updateToken`; a token outside the threshold is returned
unchanged with no store write. -/
theorem c5_refresh_threshold (db : List CloudAccount) (nowSeconds : Int)
    (aid : String) (td : TokenManager.TokenData) (nt : TokenManager.RefreshedToken)
    (acc : CloudAccount) (t0 : StoredToken)
    (hacc : TokenManager.getAccountRow db aid = some acc)
    (htok : acc.token = some t0) :
    (nowSeconds ≥ td.expiry_timestamp - 300 →
      TokenManager.refreshStage db nowSeconds aid td (.ok nt) =
        ({ td with access_token := nt.access_token, expires_in := nt.expires_in,
                   expiry_timestamp := nowSeconds + nt.expires_in },
         [TokenManager.StoreWrite.updateToken aid
            { t0 with access_token := nt.access_token, expires_in := nt.expires_in,
                      expiry_timestamp := nowSeconds + nt.expires_in }])) ∧
    (nowSeconds < td.expiry_timestamp - 300 →
      ∀ o, TokenManager.refreshStage db nowSeconds aid td o = (td, [])) := by
  constructor
  · intro h
    simp [TokenManager.refreshStage, h, TokenManager.saveRefreshedToken, hacc, htok]
  · intro h o
    have h' : ¬ (nowSeconds ≥ td.expiry_timestamp - 300) := by omega
    simp [TokenManager.refreshStage, h']

/-- Witness for C5 (amended) at `nowSeconds = 400`, expiry 600 (inside the
threshold): the refreshed token and the matching `updateToken` write. -/
theorem c5_refresh_threshold_witness :
    TokenManager.refreshStage [TokenManager.c5acc] 400 "a1"
      { TokenManager.c5td with expiry_timestamp := 600 }
      (.ok { access_token := "new", expires_in := 3600 }) =
      ({ TokenManager.c5td with expiry_timestamp := 3600 + 400, access_token := "new" },
       [TokenManager.StoreWrite.updateToken "a1"
          { TokenManager.c5tok with access_token := "new", expires_in := 3600,
                                    expiry_timestamp := 3600 + 400 }]) := by
  have h := (c5_refresh_threshold [TokenManager.c5acc] 400 "a1"
    { TokenManager.c5td with expiry_timestamp := 600 }
    { access_token := "new", expires_in := 3600 }
    TokenManager.c5acc TokenManager.c5tok (by decide) (by decide)).1 (by decide)
  rw [h]
  decide

namespace TokenManager

/-- C6 concrete account: provider `google`, no project id, row present in
the store. -/
def c6tok : StoredToken :=
  { access_token := "t"
    refresh_token := "r"
    expires_in := 3600
    expiry_timestamp := 1000000
    project_id := none }

def c6td : TokenData :=
  { account_id := "a1"
    email := "alice@example.com"
    provider := "google"
    access_token := "t"
    refresh_token := "r"
    expires_in := 3600
    expiry_timestamp := 1000000
    project_id := none }

def c6acc : CloudAccount :=
  { id := "a1"
    provider := "google"
    email := "alice@example.com"
    token := some c6tok }

end TokenManager

/-- Counterexample to C6 as stated: when `fetchProjectId` throws, the
fallback `cloud-code-alice` is set on the in-memory token, but the list of
store writes is empty — the fallback is *not* persisted, even though the
account row (with a token) is present in the store. -/
theorem c6_counterexample :
    TokenManager.projectStage [TokenManager.c6acc] "a1" TokenManager.c6td (.error ()) =
      ({ TokenManager.c6td with project_id := some "cloud-code-alice" }, []) := by
  decide

/-- Claim C6 (amended: only a successfully discovered project id is
persisted; on failure — a falsy result or a thrown error — the
deterministic fallback `cloud-code-<local part of email>` is set on the
in-memory token only, with no store write): behaviour of the project-id
discovery block of `getNext` for accounts with missing project id and
provider `google` or `anthropic`. -/
theorem c6_project_discovery (db : List CloudAccount) (aid : String)
    (td : TokenManager.TokenData) (acc : CloudAccount) (t0 : StoredToken)
    (hprov : td.provider = "google" ∨ td.provider = "anthropic")
    (hmiss : TokenManager.projectIdMissing td.project_id = true)
    (hacc : TokenManager.getAccountRow db aid = some acc)
    (htok : acc.token = some t0) :
    (∀ pid, pid ≠ "" →
      TokenManager.projectStage db aid td (.ok (some pid)) =
        ({ td with project_id := some pid },
         [TokenManager.StoreWrite.updateToken aid { t0 with project_id := some pid }])) ∧
    (TokenManager.projectStage db aid td (.error ()) =
      ({ td with project_id := some (TokenManager.fallbackProjectId td.email) }, [])) ∧
    (TokenManager.projectStage db aid td (.ok none) =
      ({ td with project_id := some (TokenManager.fallbackProjectId td.email) }, [])) := by
  have hcond : (TokenManager.projectIdMissing td.project_id &&
      (td.provider == "google" || td.provider == "anthropic")) = true := by
    cases hprov with
    | inl h => simp [hmiss, h]
    | inr h => simp [hmiss, h]
  refine ⟨?_, ?_, ?_⟩
  · intro pid hpid
    have hemp : pid.isEmpty = false := by
      by_contra hx
      have hx' : pid.isEmpty = true := by simpa using hx
      exact hpid ((String.isEmpty_iff pid).mp hx')
    have htr : jsTruthy (some pid) = true := by
      simp [jsTruthy, hemp]
    simp [TokenManager.projectStage, hcond, htr, TokenManager.saveProjectId, hacc, htok]
  · simp [TokenManager.projectStage, hcond]
  · simp [TokenManager.projectStage, hcond, jsTruthy]

/-- Witness for C6 (amended): successful discovery of `proj-77` is stored
in memory and persisted; a null result sets the fallback without a write. -/
theorem c6_project_discovery_witness :
    TokenManager.projectStage [TokenManager.c6acc] "a1" TokenManager.c6td
      (.ok (some "proj-77")) =
      ({ TokenManager.c6td with project_id := some "proj-77" },
       [TokenManager.StoreWrite.updateToken "a1"
          { TokenManager.c6tok with project_id := some "proj-77" }]) := by
  have h := (c6_project_discovery [TokenManager.c6acc] "a1" TokenManager.c6td
    TokenManager.c6acc TokenManager.c6tok (Or.inl rfl) (by decide) (by decide)
    (by decide)).1 "proj-77" (by decide)
  exact h

namespace TokenManager

/-- Unfolding of `getNextToken` in the regular case: the map is non-empty
and at least one candidate passes the cooldown and model filters. -/
theorem getNextToken_eq_of_nonempty (s : TMState) (db : List CloudAccount)
    (now : Int) (requested : Option String) (ro : Except Unit RefreshedToken)
    (po : Except Unit (Option String))
    (hne : s.tokens.isEmpty = false)
    (hvalid : (validTokens s now requested).isEmpty = false) :
    getNextToken s db now requested ro po =
      (let sel := selectCandidate db s.tokens (validTokens s now requested) s.currentIndex
       let r1 := refreshStage db (Int.fdiv now 1000) sel.1 sel.2.1 ro
       let r2 := projectStage db sel.1 r1.1 po
       (some (routedOf sel.1 r2.1),
        { currentIndex := sel.2.2, tokens := updateTokensMap s.tokens sel.1 r2.1,
          cooldowns := s.cooldowns },
        r1.2 ++ r2.2)) := by
  have hv' : (s.tokens.filter
      (fun d => isNotCooldown s.cooldowns now d.email && isModelAllowed requested d)).isEmpty
      = false := hvalid
  unfold getNextToken
  simp only [hne, Bool.false_eq_true, if_false, hv']
  rfl

end TokenManager

namespace TokenManager

/-- C10 concrete scenario: a single local-provider account, active in the
store, present in the in-memory map, but under an active cooldown. -/
def c10td : TokenData :=
  { account_id := "L1"
    email := "l@x"
    provider := "local-ollama"
    access_token := "t"
    refresh_token := "http://localhost:11434/v1"
    expires_in := 3600
    expiry_timestamp := 1000000
    project_id := some "llama3" }

def c10acc : CloudAccount :=
  { id := "L1"
    provider := "local-ollama"
    email := "l@x"
    token := some { access_token := "t", refresh_token := "http://localhost:11434/v1",
                    expires_in := 3600, expiry_timestamp := 1000000,
                    project_id := some "llama3" }
    is_active := true }

def c10state : TMState :=
  { currentIndex := 0
    tokens := [c10td]
    cooldowns := [("l@x", 10000000)] }

end TokenManager

/-- Counterexample to C10 as stated: the store's active account is a
local-provider account present in the in-memory map, yet `getNext` returns
`null` — its email is under cooldown, so the filtered candidate list is
empty and the emptiness guard returns before the pin is ever consulted. -/
theorem c10_counterexample :
    [TokenManager.c10acc].find? (fun x => x.is_active) = some TokenManager.c10acc ∧
    TokenManager.startsWithLocal TokenManager.c10acc.provider = true ∧
    TokenManager.c10state.tokens.find?
      (fun x => x.account_id == TokenManager.c10acc.id) = some TokenManager.c10td ∧
    (TokenManager.getNextToken TokenManager.c10state [TokenManager.c10acc] 0 none
      (.error ()) (.error ())).1 = none := by
  refine ⟨by decide, by decide, by decide, by decide⟩

/-- Claim C10 (amended: provided the filtered candidate list is non-empty):
if the store's active account has a provider starting with `local-` and it
is present in the in-memory map, `getNext` returns that account — even when
its own email is under cooldown or its `selected_models` excludes the
requested model, because the pin looks it up directly in the map rather
than in the filtered candidate list — and the round-robin index does not
advance. -/
theorem c10_local_pin (s : TokenManager.TMState) (db : List CloudAccount)
    (now : Int) (requested : Option String)
    (ro : Except Unit TokenManager.RefreshedToken)
    (po : Except Unit (Option String)) (a : CloudAccount) (d : TokenManager.TokenData)
    (hne : s.tokens.isEmpty = false)
    (hvalid : (TokenManager.validTokens s now requested).isEmpty = false)
    (hactive : db.find? (fun x => x.is_active) = some a)
    (hlocal : TokenManager.startsWithLocal a.provider = true)
    (hmem : s.tokens.find? (fun x => x.account_id == a.id) = some d) :
    ∃ r, (TokenManager.getNextToken s db now requested ro po).1 = some r ∧
      r.id = a.id ∧ r.email = d.email ∧
      ((TokenManager.getNextToken s db now requested ro po).2.1).currentIndex
        = s.currentIndex := by
  have hsel : TokenManager.selectCandidate db s.tokens
      (TokenManager.validTokens s now requested) s.currentIndex
      = (a.id, d, s.currentIndex) := by
    unfold TokenManager.selectCandidate
    rw [hactive]
    simp [hlocal, hmem]
  have hmain := TokenManager.getNextToken_eq_of_nonempty s db now requested ro po hne hvalid
  rw [hsel] at hmain
  refine ⟨TokenManager.routedOf a.id
      (TokenManager.projectStage db a.id
        (TokenManager.refreshStage db (Int.fdiv now 1000) a.id d ro).1 po).1,
    ?_, rfl, ?_, ?_⟩
  · rw [hmain]
  · have h1 := TokenManager.refreshStage_preserves db (Int.fdiv now 1000) a.id d ro
    have h2 := TokenManager.projectStage_preserves db a.id
      (TokenManager.refreshStage db (Int.fdiv now 1000) a.id d ro).1 po
    exact h2.2.1.trans h1.2.1
  · rw [hmain]

namespace TokenManager

/-- No stored account is both active and of a local provider (decidable
form: the store's first active account, if any, is not local). -/
def noActiveLocal (db : List CloudAccount) : Bool :=
  match db.find? (fun x => x.is_active) with
  | some a => !startsWithLocal a.provider
  | none => true

/-- The account ids of the filtered candidate list, in order. -/
def validIds (s : TMState) (now : Int) (requested : Option String) : List String :=
  (validTokens s now requested).map TokenData.account_id

/-- The outcomes of the two external calls one `getNextToken` call may make. -/
def OraclePair : Type :=
  Except Unit RefreshedToken × Except Unit (Option String)

/-- One `getNextToken` call viewed as a state transition (store writes
dropped). -/
def stepTM (db : List CloudAccount) (now : Int) (requested : Option String)
    (o : OraclePair) (s : TMState) : Option RoutedAccount × TMState :=
  ((getNextToken s db now requested o.1 o.2).1,
   (getNextToken s db now requested o.1 o.2).2.1)

/-- State after `k` consecutive `getNextToken` calls, call `i` using
oracle outcomes `ors i`. -/
def iterTM (db : List CloudAccount) (now : Int) (requested : Option String)
    (ors : Nat → OraclePair) (s : TMState) : Nat → TMState
  | 0 => s
  | k + 1 => (stepTM db now requested (ors k) (iterTM db now requested ors s k)).2

/-- The account selected by call `k` (0-based) in a run of consecutive
`getNextToken` calls. -/
def selectionAt (db : List CloudAccount) (now : Int) (requested : Option String)
    (ors : Nat → OraclePair) (s : TMState) (k : Nat) : Option RoutedAccount :=
  (stepTM db now requested (ors k) (iterTM db now requested ors s k)).1

/-- When no active local account pins the selection, `selectCandidate` is
plain round-robin: pick index `i % |valid|` and advance the index. -/
theorem selectCandidate_rr (db : List CloudAccount) (tokens0 valid : List TokenData)
    (i : Nat) (hnl : noActiveLocal db = true) :
    selectCandidate db tokens0 valid i =
      ((valid.getD (i % valid.length) default).account_id,
       valid.getD (i % valid.length) default, i + 1) := by
  unfold noActiveLocal at hnl
  unfold selectCandidate
  cases hfind : db.find? (fun x => x.is_active) with
  | none => rfl
  | some a =>
    rw [hfind] at hnl
    have hl : startsWithLocal a.provider = false := by simpa using hnl
    simp [hl]

/-- The model filter only looks at `selected_models`. -/
theorem isModelAllowed_congr (requested : Option String) (x y : TokenData)
    (h : x.selected_models = y.selected_models) :
    isModelAllowed requested x = isModelAllowed requested y := by
  unfold isModelAllowed
  cases requested with
  | none => rfl
  | some r => rw [h]

/-- Filtering then projecting a key is unchanged by a map that preserves
the filter predicate and the key pointwise. -/
theorem map_key_filter_pointwise (key : TokenData → String) (p : TokenData → Bool)
    (g : TokenData → TokenData) :
    ∀ (l : List TokenData), (∀ d ∈ l, p (g d) = p d ∧ key (g d) = key d) →
      ((l.map g).filter p).map key = (l.filter p).map key := by
  intro l h
  induction l with
  | nil => rfl
  | cons d rest ih =>
    have hd := h d (List.mem_cons_self d rest)
    have hrest := ih (fun x hx => h x (List.mem_cons_of_mem d hx))
    simp only [List.map_cons, List.filter_cons, hd.1]
    cases hp : p d with
    | true => simp [hd.2, hrest]
    | false => simp [hrest]

/-- Replacing the entry keyed by a member's id with data that has the same
id, email, and selected models leaves the filtered id list unchanged. -/
theorem validIds_update (s : TMState) (now : Int) (requested : Option String)
    (ci : Nat) (d0 td2 : TokenData)
    (hnodup : (s.tokens.map TokenData.account_id).Nodup)
    (hd0 : d0 ∈ s.tokens)
    (hem : td2.email = d0.email) (hsels : td2.selected_models = d0.selected_models)
    (hid2 : td2.account_id = d0.account_id) :
    validIds { currentIndex := ci,
               tokens := updateTokensMap s.tokens d0.account_id td2,
               cooldowns := s.cooldowns } now requested
      = validIds s now requested := by
  unfold validIds validTokens updateTokensMap
  apply map_key_filter_pointwise
  intro d hd
  cases heq : (d.account_id == d0.account_id) with
  | false => simp [heq]
  | true =>
    have hdd0 : d = d0 := by
      have hinj := List.inj_on_of_nodup_map hnodup
      exact hinj hd hd0 (by simpa using heq)
    subst hdd0
    constructor
    · simp only [heq, if_pos]
      rw [hem, isModelAllowed_congr requested td2 d hsels]
    · simp only [heq, if_pos]
      rw [hid2]

/-- Invariant for a stable run of round-robin selections: unique account
ids, no active local account pinning the choice, and a non-empty filtered
candidate list. -/
def rrStable (s : TMState) (db : List CloudAccount) (now : Int)
    (requested : Option String) : Prop :=
  (s.tokens.map TokenData.account_id).Nodup ∧
  noActiveLocal db = true ∧
  validTokens s now requested ≠ []

theorem isEmptyFalse_of_ne_nil {α : Type} {l : List α} (h : l ≠ []) :
    l.isEmpty = false := by
  cases l with
  | nil => exact absurd rfl h
  | cons a t => rfl

/-- One round-robin step: the selection is the candidate at index
`currentIndex % |C|`, the index advances by one, cooldowns are untouched,
the candidate id list is unchanged, and the invariant is preserved. -/
theorem stepTM_rr (s : TMState) (db : List CloudAccount) (now : Int)
    (requested : Option String) (o : OraclePair)
    (h : rrStable s db now requested) :
    (∃ r, (stepTM db now requested o s).1 = some r ∧
       (validIds s now requested)[s.currentIndex % (validIds s now requested).length]?
         = some r.id) ∧
    ((stepTM db now requested o s).2).currentIndex = s.currentIndex + 1 ∧
    ((stepTM db now requested o s).2).cooldowns = s.cooldowns ∧
    validIds ((stepTM db now requested o s).2) now requested
      = validIds s now requested ∧
    rrStable ((stepTM db now requested o s).2) db now requested := by
  obtain ⟨hnodup, hnl, hvne⟩ := h
  have htne : s.tokens ≠ [] := by
    intro h0
    apply hvne
    unfold validTokens
    rw [h0]
    rfl
  have hne : s.tokens.isEmpty = false := isEmptyFalse_of_ne_nil htne
  have hvempty : (validTokens s now requested).isEmpty = false :=
    isEmptyFalse_of_ne_nil hvne
  have hmain := getNextToken_eq_of_nonempty s db now requested o.1 o.2 hne hvempty
  have hsel := selectCandidate_rr db s.tokens (validTokens s now requested)
    s.currentIndex hnl
  rw [hsel] at hmain
  set valid := validTokens s now requested with hvdef
  set n := valid.length with hn
  have hnpos : 0 < n := by
    rw [hn]
    exact List.length_pos.mpr hvne
  have hklt : s.currentIndex % n < n := Nat.mod_lt _ hnpos
  set chosen := valid.getD (s.currentIndex % n) default with hchosen
  have hchosen_elem : chosen = valid.get ⟨s.currentIndex % n, hklt⟩ := by
    rw [hchosen]
    exact List.getD_eq_getElem valid default hklt
  have hchosen_mem : chosen ∈ valid := by
    rw [hchosen_elem]
    exact List.get_mem valid (s.currentIndex % n) hklt
  have hchosen_tok : chosen ∈ s.tokens := by
    have := hchosen_mem
    rw [hvdef] at this
    exact List.mem_of_mem_filter this
  set td2 := (projectStage db chosen.account_id
    (refreshStage db (Int.fdiv now 1000) chosen.account_id chosen o.1).1 o.2).1
    with htd2
  have hpres1 := refreshStage_preserves db (Int.fdiv now 1000) chosen.account_id chosen o.1
  have hpres2 := projectStage_preserves db chosen.account_id
    (refreshStage db (Int.fdiv now 1000) chosen.account_id chosen o.1).1 o.2
  have htd2id : td2.account_id = chosen.account_id := by
    rw [htd2]
    exact hpres2.1.trans hpres1.1
  have htd2em : td2.email = chosen.email := by
    rw [htd2]
    exact hpres2.2.1.trans hpres1.2.1
  have htd2sels : td2.selected_models = chosen.selected_models := by
    rw [htd2]
    exact hpres2.2.2.2.trans hpres1.2.2.2
  have hstep1 : (stepTM db now requested o s).1 = some (routedOf chosen.account_id td2) := by
    unfold stepTM
    rw [hmain]
  have hstate : (stepTM db now requested o s).2 =
      { currentIndex := s.currentIndex + 1,
        tokens := updateTokensMap s.tokens chosen.account_id td2,
        cooldowns := s.cooldowns } := by
    unfold stepTM
    rw [hmain]
  have hvids : validIds ((stepTM db now requested o s).2) now requested
      = validIds s now requested := by
    rw [hstate]
    exact validIds_update s now requested (s.currentIndex + 1) chosen td2
      hnodup hchosen_tok htd2em htd2sels htd2id
  refine ⟨⟨routedOf chosen.account_id td2, hstep1, ?_⟩, ?_, ?_, hvids, ?_, ?_, ?_⟩
  · show (validIds s now requested)[s.currentIndex % (validIds s now requested).length]?
      = some chosen.account_id
    have hlen : (validIds s now requested).length = n := by
      unfold validIds
      rw [List.length_map, ← hvdef, hn]
    rw [hlen]
    unfold validIds
    rw [← hvdef, List.getElem?_map, List.getElem?_eq_getElem hklt]
    exact congrArg some (congrArg TokenData.account_id hchosen_elem).symm
  · rw [hstate]
  · rw [hstate]
  · -- Nodup of the updated id list
    have hids : ((stepTM db now requested o s).2).tokens.map TokenData.account_id
        = s.tokens.map TokenData.account_id := by
      rw [hstate]
      show (updateTokensMap s.tokens chosen.account_id td2).map TokenData.account_id
        = s.tokens.map TokenData.account_id
      unfold updateTokensMap
      rw [List.map_map]
      apply List.map_congr_left
      intro d _
      cases heq : (d.account_id == chosen.account_id) with
      | false => simp [Function.comp, heq]
      | true =>
        have : d.account_id = chosen.account_id := by simpa using heq
        simp [Function.comp, heq, htd2id, this]
    rw [hids]
    exact hnodup
  · exact hnl
  · -- valid list of the new state is non-empty
    intro h0
    apply hvne
    have : validIds ((stepTM db now requested o s).2) now requested = [] := by
      unfold validIds
      rw [h0]
      rfl
    rw [hvids] at this
    unfold validIds at this
    rw [← hvdef] at this
    exact List.map_eq_nil_iff.mp this

/-- Iterating round-robin steps: the invariant persists, the index advances
by exactly one per call, and the candidate id list never changes. -/
theorem iterTM_spec (db : List CloudAccount) (now : Int) (requested : Option String)
    (ors : Nat → OraclePair) :
    ∀ (k : Nat) (s : TMState), rrStable s db now requested →
      rrStable (iterTM db now requested ors s k) db now requested ∧
      (iterTM db now requested ors s k).currentIndex = s.currentIndex + k ∧
      validIds (iterTM db now requested ors s k) now requested
        = validIds s now requested := by
  intro k
  induction k with
  | zero => intro s h; exact ⟨h, rfl, rfl⟩
  | succ k ih =>
    intro s h
    have hk := ih s h
    have hstep := stepTM_rr (iterTM db now requested ors s k) db now requested (ors k) hk.1
    refine ⟨hstep.2.2.2.2, ?_, ?_⟩
    · show ((stepTM db now requested (ors k) (iterTM db now requested ors s k)).2).currentIndex
        = s.currentIndex + (k + 1)
      rw [hstep.2.1, hk.2.1]
      omega
    · show validIds ((stepTM db now requested (ors k) (iterTM db now requested ors s k)).2)
        now requested = validIds s now requested
      rw [hstep.2.2.2.1, hk.2.2]

/-- Call `k` of a stable run selects the candidate at index
`(initialIndex + k) % |C|`. -/
theorem selectionAt_spec (db : List CloudAccount) (now : Int) (requested : Option String)
    (ors : Nat → OraclePair) (s : TMState) (h : rrStable s db now requested) (k : Nat) :
    ∃ r, selectionAt db now requested ors s k = some r ∧
      (validIds s now requested)[(s.currentIndex + k) % (validIds s now requested).length]?
        = some r.id := by
  have hk := iterTM_spec db now requested ors k s h
  have hstep := stepTM_rr (iterTM db now requested ors s k) db now requested (ors k) hk.1
  obtain ⟨r, hr1, hr2⟩ := hstep.1
  refine ⟨r, hr1, ?_⟩
  rw [hk.2.2, hk.2.1] at hr2
  exact hr2

/-- Modular rotation: starting at residue `i % n`, the offset
`(j + n - i % n) % n` lands exactly on position `j`. -/
theorem rr_mod_rotation (i j n : Nat) (hn : 0 < n) (hj : j < n) :
    (i + (j + n - i % n) % n) % n = j := by
  have ha : i % n < n := Nat.mod_lt _ hn
  have hsum : i % n + (j + n - i % n) = j + n := by omega
  have h3 : i + (j + n - i % n) % n ≡ j + n [MOD n] := by
    calc i + (j + n - i % n) % n
        ≡ i + (j + n - i % n) [MOD n] := Nat.ModEq.add_left i (Nat.mod_modEq _ n)
      _ ≡ i % n + (j + n - i % n) [MOD n] :=
          Nat.ModEq.add_right _ (Nat.mod_modEq i n).symm
      _ = j + n := hsum
  calc (i + (j + n - i % n) % n) % n
      = (j + n) % n := h3
    _ = j % n := Nat.add_mod_right j n
    _ = j := Nat.mod_eq_of_lt hj

end TokenManager

/-- Claim C2: with no active local-provider account, `getNext` round-robins
over the filtered candidate list with a manager-local index taken modulo
the candidate count; the index persists across calls and advances by
exactly one per selection, so over a stable non-empty candidate set `C`
every account of `C` is selected within `|C|` consecutive calls. -/
theorem c2_round_robin (s : TokenManager.TMState) (db : List CloudAccount)
    (now : Int) (requested : Option String) (ors : Nat → TokenManager.OraclePair)
    (hnodup : (s.tokens.map TokenManager.TokenData.account_id).Nodup)
    (hnl : TokenManager.noActiveLocal db = true)
    (hvalid : TokenManager.validTokens s now requested ≠ []) :
    (∀ k, k ≤ (TokenManager.validTokens s now requested).length →
      (TokenManager.iterTM db now requested ors s k).currentIndex
        = s.currentIndex + k) ∧
    (∀ d ∈ TokenManager.validTokens s now requested,
      ∃ k, k < (TokenManager.validTokens s now requested).length ∧
        ∃ r, TokenManager.selectionAt db now requested ors s k = some r ∧
          r.id = d.account_id) := by
  have hst : TokenManager.rrStable s db now requested := ⟨hnodup, hnl, hvalid⟩
  constructor
  · intro k _
    exact (TokenManager.iterTM_spec db now requested ors k s hst).2.1
  · intro d hd
    have hC : (TokenManager.validIds s now requested).length
        = (TokenManager.validTokens s now requested).length := by
      unfold TokenManager.validIds
      rw [List.length_map]
    have hn : 0 < (TokenManager.validIds s now requested).length := by
      rw [hC]
      exact List.length_pos.mpr hvalid
    have hmem : d.account_id ∈ TokenManager.validIds s now requested :=
      List.mem_map_of_mem _ hd
    obtain ⟨⟨j, hj⟩, hjd⟩ := List.mem_iff_get.mp hmem
    set n := (TokenManager.validIds s now requested).length with hndef
    refine ⟨(j + n - s.currentIndex % n) % n, ?_, ?_⟩
    · rw [← hC]
      exact Nat.mod_lt _ hn
    · obtain ⟨r, hr1, hr2⟩ := TokenManager.selectionAt_spec db now requested ors s hst
        ((j + n - s.currentIndex % n) % n)
      refine ⟨r, hr1, ?_⟩
      rw [← hndef] at hr2
      rw [TokenManager.rr_mod_rotation s.currentIndex j n hn hj] at hr2
      have hgj : (TokenManager.validIds s now requested)[j]?
          = some d.account_id := by
        rw [List.getElem?_eq_getElem hj]
        exact congrArg some hjd
      rw [hgj] at hr2
      exact (Option.some_inj.mp hr2).symm

/-- Witness for C2 at a concrete two-account manager state: both accounts
are selected within two calls and the index advances by one per call. -/
theorem c2_round_robin_witness :
    (∀ k, k ≤ (TokenManager.validTokens
        { currentIndex := 0,
          tokens := [{ account_id := "A", email := "a@x", provider := "google",
                       access_token := "ta", refresh_token := "ra", expires_in := 3600,
                       expiry_timestamp := 1000000, project_id := some "p" },
                     { account_id := "B", email := "b@x", provider := "google",
                       access_token := "tb", refresh_token := "rb", expires_in := 3600,
                       expiry_timestamp := 1000000, project_id := some "q" }],
          cooldowns := [] } 0 none).length →
      (TokenManager.iterTM [] 0 none (fun _ => (.error (), .error ()))
        { currentIndex := 0,
          tokens := [{ account_id := "A", email := "a@x", provider := "google",
                       access_token := "ta", refresh_token := "ra", expires_in := 3600,
                       expiry_timestamp := 1000000, project_id := some "p" },
                     { account_id := "B", email := "b@x", provider := "google",
                       access_token := "tb", refresh_token := "rb", expires_in := 3600,
                       expiry_timestamp := 1000000, project_id := some "q" }],
          cooldowns := [] } k).currentIndex = 0 + k) ∧
    (∀ d ∈ TokenManager.validTokens
        { currentIndex := 0,
          tokens := [{ account_id := "A", email := "a@x", provider := "google",
                       access_token := "ta", refresh_token := "ra", expires_in := 3600,
                       expiry_timestamp := 1000000, project_id := some "p" },
                     { account_id := "B", email := "b@x", provider := "google",
                       access_token := "tb", refresh_token := "rb", expires_in := 3600,
                       expiry_timestamp := 1000000, project_id := some "q" }],
          cooldowns := [] } 0 none,
      ∃ k, k < (TokenManager.validTokens
          { currentIndex := 0,
            tokens := [{ account_id := "A", email := "a@x", provider := "google",
                         access_token := "ta", refresh_token := "ra", expires_in := 3600,
                         expiry_timestamp := 1000000, project_id := some "p" },
                       { account_id := "B", email := "b@x", provider := "google",
                         access_token := "tb", refresh_token := "rb", expires_in := 3600,
                         expiry_timestamp := 1000000, project_id := some "q" }],
            cooldowns := [] } 0 none).length ∧
        ∃ r, TokenManager.selectionAt [] 0 none (fun _ => (.error (), .error ()))
            { currentIndex := 0,
              tokens := [{ account_id := "A", email := "a@x", provider := "google",
                           access_token := "ta", refresh_token := "ra", expires_in := 3600,
                           expiry_timestamp := 1000000, project_id := some "p" },
                         { account_id := "B", email := "b@x", provider := "google",
                           access_token := "tb", refresh_token := "rb", expires_in := 3600,
                           expiry_timestamp := 1000000, project_id := some "q" }],
              cooldowns := [] } k = some r ∧ r.id = d.account_id) :=
  c2_round_robin _ [] 0 none (fun _ => (.error (), .error ()))
    (by decide) (by decide) (by decide)

/-- Witness for C10 (amended): two accounts, the local one pinned by the
store's active flag despite its cooldown; returned with the index frozen. -/
theorem c10_local_pin_witness :
    ∃ r, (TokenManager.getNextToken
        { currentIndex := 5,
          tokens := [{ account_id := "A", email := "a@x", provider := "google",
                       access_token := "ta", refresh_token := "ra", expires_in := 3600,
                       expiry_timestamp := 1000000, project_id := some "p" },
                     TokenManager.c10td],
          cooldowns := [("l@x", 10000000)] }
        [TokenManager.c10acc] 0 none (.error ()) (.error ())).1 = some r ∧
      r.id = TokenManager.c10acc.id ∧ r.email = TokenManager.c10td.email ∧
      ((TokenManager.getNextToken
        { currentIndex := 5,
          tokens := [{ account_id := "A", email := "a@x", provider := "google",
                       access_token := "ta", refresh_token := "ra", expires_in := 3600,
                       expiry_timestamp := 1000000, project_id := some "p" },
                     TokenManager.c10td],
          cooldowns := [("l@x", 10000000)] }
        [TokenManager.c10acc] 0 none (.error ()) (.error ())).2.1).currentIndex = 5 := by
  exact c10_local_pin _ [TokenManager.c10acc] 0 none (.error ()) (.error ())
    TokenManager.c10acc TokenManager.c10td (by decide) (by decide) (by decide)
    (by decide) (by decide)

namespace AutoSwitch

/-- `AutoSwitchService.HYSTERESIS_THRESHOLD` (5-point guard zone). -/
def HYSTERESIS_THRESHOLD : ℚ := 5

/-- `AutoSwitchService.calculateHealthScore`: 0 without quota, on
`rate_limited`/`error` status, or with no model entries; otherwise
`avg/100·60` plus a status bonus (40 for `active`, 20 for `refreshing`),
clamped to [0, 100]. Scores are exact rationals (the claims under study do
not depend on floating-point rounding). -/
def calculateHealthScore (a : CloudAccount) : ℚ :=
  match a.quota with
  | none => 0
  | some q =>
    if a.status = "rate_limited" ∨ a.status = "error" then 0
    else
      let models := q.models.map (fun kv => kv.2)
      if models.length = 0 then 0
      else
        let avgQuota := models.foldl (fun acc m => acc + m.percentage) 0 / (models.length : ℚ)
        let s1 := (avgQuota / 100) * 60
        let s2 := s1 + (if a.status = "active" then 40 else 0)
        let s3 := s2 + (if a.status = "refreshing" then 20 else 0)
        min 100 (max 0 s3)

/-- The `.filter(...).map(...)` chain of `findBestAccount`: non-current
accounts with status `active`, each paired with its health score. -/
def eligibleScored (accounts : List CloudAccount) (currentId : String) :
    List (CloudAccount × ℚ) :=
  (accounts.filter
    (fun acc => (acc.id != currentId) && (acc.status == "active"))).map
    (fun acc => (acc, calculateHealthScore acc))

/-- The hysteresis filter of `findBestAccount`:
`c.score > currentScore + HYSTERESIS_THRESHOLD`. -/
def hysteresisCandidates (accounts : List CloudAccount) (currentId : String)
    (currentScore : ℚ) : List (CloudAccount × ℚ) :=
  (eligibleScored accounts currentId).filter
    (fun c => decide (currentScore + HYSTERESIS_THRESHOLD < c.2))

/-- The comparator `(a, b) => b.score - a.score`: `x` sorts no later than
`y` iff `y`'s score is at most `x`'s (descending by score). -/
def scoreDescRel (x y : CloudAccount × ℚ) : Prop :=
  y.2 ≤ x.2

instance : DecidableRel scoreDescRel :=
  fun x y => inferInstanceAs (Decidable (y.2 ≤ x.2))

/-- `AutoSwitchService.findBestAccount`: score all non-current accounts with
status `active`, keep those above the hysteresis threshold, sort by
descending score (`.sort((a, b) => b.score - a.score)`), and return the
first. -/
def findBestAccount (accounts : List CloudAccount) (currentId : String)
    (currentScore : ℚ) : Option CloudAccount :=
  ((List.insertionSort scoreDescRel
    (hysteresisCandidates accounts currentId currentScore)).head?).map (fun c => c.1)

/-- `AutoSwitchService.checkAndSwitchIfNeeded`: only with the setting
enabled and a critical active account does it look for a replacement;
returns the account switched to (via `switchCloudAccount`), or `none`. -/
def checkAndSwitchIfNeeded (enabled : Bool) (accounts : List CloudAccount) :
    Option CloudAccount :=
  if !enabled then none
  else
    match accounts.find? (fun a => a.is_active) with
    | none => none
    | some cur =>
      let currentScore := calculateHealthScore cur
      let isCritical := decide (currentScore < 10) ||
        (cur.status == "rate_limited") || (cur.status == "error")
      if isCritical then findBestAccount accounts cur.id currentScore
      else none

/-- Everything `findBestAccount` guarantees about a returned candidate:
membership, non-current, status `active`, above the hysteresis threshold,
and maximal score among eligible accounts. -/
theorem findBestAccount_spec (accounts : List CloudAccount) (cid : String) (cs : ℚ)
    (next : CloudAccount) (h : findBestAccount accounts cid cs = some next) :
    next ∈ accounts ∧ next.id ≠ cid ∧ next.status = "active" ∧
    cs + 5 < calculateHealthScore next ∧
    (∀ d ∈ accounts, d.id ≠ cid → d.status = "active" →
      cs + 5 < calculateHealthScore d →
      calculateHealthScore d ≤ calculateHealthScore next) := by
  unfold findBestAccount at h
  haveI htot : IsTotal (CloudAccount × ℚ) scoreDescRel := ⟨fun a b => le_total b.2 a.2⟩
  haveI htrans : IsTrans (CloudAccount × ℚ) scoreDescRel :=
    ⟨fun a b c h1 h2 => le_trans h2 h1⟩
  have hperm : (List.insertionSort scoreDescRel
      (hysteresisCandidates accounts cid cs)).Perm (hysteresisCandidates accounts cid cs) :=
    List.perm_insertionSort _ _
  have hpair : (List.insertionSort scoreDescRel
      (hysteresisCandidates accounts cid cs)).Pairwise scoreDescRel :=
    List.sorted_insertionSort _ _
  cases hs : List.insertionSort scoreDescRel (hysteresisCandidates accounts cid cs) with
  | nil =>
    rw [hs] at h
    exact absurd h (by simp)
  | cons c tail =>
    rw [hs] at h
    rw [hs] at hperm
    rw [hs] at hpair
    simp only [List.head?_cons, Option.map_some] at h
    have hcnext : c.1 = next := Option.some_inj.mp h
    have hcmem : c ∈ hysteresisCandidates accounts cid cs :=
      hperm.mem_iff.mp (List.mem_cons_self c tail)
    have hcand_props := List.mem_filter.mp hcmem
    have hcscored : c ∈ eligibleScored accounts cid := hcand_props.1
    obtain ⟨a, hamem, hac⟩ := List.mem_map.mp hcscored
    have hanext : a = next := by rw [← hcnext, ← hac]
    subst hanext
    have hbase_props := List.mem_filter.mp hamem
    have haccounts : a ∈ accounts := hbase_props.1
    have hfilt := hbase_props.2
    have hid : a.id ≠ cid := by
      have := (Bool.and_eq_true _ _).mp hfilt
      simpa using this.1
    have hstatus : a.status = "active" := by
      have := (Bool.and_eq_true _ _).mp hfilt
      simpa using this.2
    have hscore : cs + 5 < calculateHealthScore a := by
      have := of_decide_eq_true hcand_props.2
      rw [← hac] at this
      simpa [HYSTERESIS_THRESHOLD] using this
    refine ⟨haccounts, hid, hstatus, hscore, ?_⟩
    intro d hdmem hdid hdstatus hdscore
    have hdbase : d ∈ accounts.filter
        (fun acc => (acc.id != cid) && (acc.status == "active")) := by
      apply List.mem_filter.mpr
      refine ⟨hdmem, ?_⟩
      simp [hdid, hdstatus]
    have hdscored : (d, calculateHealthScore d) ∈ eligibleScored accounts cid :=
      List.mem_map_of_mem _ hdbase
    have hdcand : (d, calculateHealthScore d) ∈ hysteresisCandidates accounts cid cs := by
      apply List.mem_filter.mpr
      refine ⟨hdscored, ?_⟩
      simp only [HYSTERESIS_THRESHOLD]
      exact decide_eq_true hdscore
    have hdsorted : (d, calculateHealthScore d) ∈ c :: tail := hperm.mem_iff.mpr hdcand
    cases List.mem_cons.mp hdsorted with
    | inl heq =>
      have hda : (d, calculateHealthScore d) = (a, calculateHealthScore a) :=
        heq.trans hac.symm
      exact le_of_eq (congrArg Prod.snd hda)
    | inr htail =>
      have hrel := (List.pairwise_cons.mp hpair).1 _ htail
      have hle : (d, calculateHealthScore d).2 ≤ c.2 := hrel
      have hc2 : c.2 = calculateHealthScore a := by rw [← hac]
      rw [hc2] at hle
      exact hle

/-- Claim C8's formula exactly as stated (refinement reference): 0 when
quota is absent or the status is `rate_limited`/`error`, otherwise
`(avg/100)·60` plus the status bonus, clamped — with no special case for an
empty model map (the mean over zero entries is read as 0). -/
def healthScoreClaimC8 (a : CloudAccount) : ℚ :=
  match a.quota with
  | none => 0
  | some q =>
    if a.status = "rate_limited" ∨ a.status = "error" then 0
    else
      let ps := q.models.map (fun kv => kv.2.percentage)
      let avg := ps.sum / (ps.length : ℚ)
      let bonus : ℚ :=
        if a.status = "active" then 40 else if a.status = "refreshing" then 20 else 0
      min 100 (max 0 ((avg / 100) * 60 + bonus))

/-- Claim C8 as amended (refinement reference): additionally 0 when the
quota has no model entries. -/
def healthScoreSpecC8 (a : CloudAccount) : ℚ :=
  match a.quota with
  | none => 0
  | some q =>
    if a.status = "rate_limited" ∨ a.status = "error" then 0
    else if q.models = [] then 0
    else
      let ps := q.models.map (fun kv => kv.2.percentage)
      let avg := ps.sum / (ps.length : ℚ)
      let bonus : ℚ :=
        if a.status = "active" then 40 else if a.status = "refreshing" then 20 else 0
      min 100 (max 0 ((avg / 100) * 60 + bonus))

theorem foldl_add_percentage (l : List ModelQuota) (acc : ℚ) :
    l.foldl (fun x m => x + m.percentage) acc
      = acc + (l.map (fun m => m.percentage)).sum := by
  induction l generalizing acc with
  | nil => simp
  | cons m rest ih => simp [ih, add_assoc]

theorem bonus_split (st : String) :
    (if st = "active" then (40 : ℚ) else 0) + (if st = "refreshing" then (20 : ℚ) else 0)
      = if st = "active" then 40 else if st = "refreshing" then 20 else 0 := by
  by_cases h1 : st = "active"
  · subst h1
    simp [show ("active" : String) ≠ "refreshing" from by decide]
  · simp [h1]

/-- C8 concrete account: quota present with an empty model map, status
`active`. -/
def c8acc : CloudAccount :=
  { id := "A"
    provider := "google"
    email := "a@x"
    quota := some { models := [] }
    status := "active" }

end AutoSwitch

/-- Counterexample to C8 as stated: for an account with a quota record that
has no model entries and status `active`, the code scores 0 (explicit
`models.length === 0` early return), while the claim's formula — zero case
only for absent quota or `rate_limited`/`error` — yields 40. -/
theorem c8_counterexample :
    AutoSwitch.calculateHealthScore AutoSwitch.c8acc = 0 ∧
    AutoSwitch.healthScoreClaimC8 AutoSwitch.c8acc = 40 ∧
    AutoSwitch.calculateHealthScore AutoSwitch.c8acc ≠
      AutoSwitch.healthScoreClaimC8 AutoSwitch.c8acc := by
  refine ⟨?_, ?_, ?_⟩
  · simp [AutoSwitch.calculateHealthScore, AutoSwitch.c8acc]
  · simp [AutoSwitch.healthScoreClaimC8, AutoSwitch.c8acc]
    norm_num
  · simp [AutoSwitch.calculateHealthScore, AutoSwitch.healthScoreClaimC8, AutoSwitch.c8acc]
    norm_num

/-- Claim C8 (amended: the score is also 0 when the quota has no model
entries): for every account the health score equals 0 when quota is absent,
status is `rate_limited`/`error`, or `quota.models` is empty; otherwise it
equals `(avgQuotaPercent/100)·60` plus 40 for status `active` or 20 for
`refreshing`, clamped to [0, 100], where `avgQuotaPercent` is the mean of
`quota.models[*].percentage`. -/
theorem c8_health_score (a : CloudAccount) :
    AutoSwitch.calculateHealthScore a = AutoSwitch.healthScoreSpecC8 a := by
  unfold AutoSwitch.calculateHealthScore AutoSwitch.healthScoreSpecC8
  cases hq : a.quota with
  | none => rfl
  | some q =>
    by_cases hst : a.status = "rate_limited" ∨ a.status = "error"
    · simp [hst]
    · simp only [hst, if_false]
      by_cases hm : q.models = []
      · simp [hm]
      · have hlen0 : (q.models.map (fun kv => kv.2)).length ≠ 0 := by
          simp [hm]
        have hlen0' : q.models ≠ [] := hm
        simp only [List.length_map, List.length_eq_zero] at hlen0
        simp only [hm, if_false, List.length_map,
          show (q.models.map (fun kv => kv.2)).length = q.models.length from
            List.length_map _ _]
        rw [AutoSwitch.foldl_add_percentage, zero_add, List.map_map]
        have hcomp : ((fun m : ModelQuota => m.percentage) ∘ (fun kv : String × ModelQuota => kv.2))
            = fun kv : String × ModelQuota => kv.2.percentage := rfl
        rw [hcomp]
        have hb := AutoSwitch.bonus_split a.status
        have : ∀ base : ℚ,
            base + (if a.status = "active" then (40:ℚ) else 0)
              + (if a.status = "refreshing" then (20:ℚ) else 0)
            = base + (if a.status = "active" then (40:ℚ) else
                if a.status = "refreshing" then 20 else 0) := by
          intro base
          rw [add_assoc, hb]
        rw [this]
        simp [hm]

/-- Claim C7: the auto-switcher changes the active account only when the
setting is enabled, the active account is critical (score < 10 or status
`rate_limited`/`error`), and the chosen candidate — a non-active account of
status `active` with the highest score among eligible ones — beats the
active account's score by strictly more than the 5-point hysteresis guard.
In particular, no switch happens when every candidate's score is at most
`active.score + 5`. -/
theorem c7_hysteresis_guard (enabled : Bool) (accounts : List CloudAccount)
    (next : CloudAccount)
    (h : AutoSwitch.checkAndSwitchIfNeeded enabled accounts = some next) :
    enabled = true ∧
    ∃ cur, accounts.find? (fun a => a.is_active) = some cur ∧
      (AutoSwitch.calculateHealthScore cur < 10 ∨
        cur.status = "rate_limited" ∨ cur.status = "error") ∧
      next ∈ accounts ∧ next.id ≠ cur.id ∧ next.status = "active" ∧
      AutoSwitch.calculateHealthScore cur + 5 < AutoSwitch.calculateHealthScore next ∧
      (∀ d ∈ accounts, d.id ≠ cur.id → d.status = "active" →
        AutoSwitch.calculateHealthScore cur + 5 < AutoSwitch.calculateHealthScore d →
        AutoSwitch.calculateHealthScore d ≤ AutoSwitch.calculateHealthScore next) := by
  unfold AutoSwitch.checkAndSwitchIfNeeded at h
  cases henabled : enabled with
  | false =>
    rw [henabled] at h
    exact absurd h (by simp)
  | true =>
    rw [henabled] at h
    simp only [Bool.not_true, Bool.false_eq_true, if_false] at h
    cases hfind : accounts.find? (fun a => a.is_active) with
    | none =>
      simp [hfind] at h
    | some cur =>
      cases hcrit : (decide (AutoSwitch.calculateHealthScore cur < 10) ||
          (cur.status == "rate_limited") || (cur.status == "error")) with
      | false =>
        simp [hfind, hcrit] at h
      | true =>
        simp only [hfind, hcrit, if_true] at h
        have hspec := AutoSwitch.findBestAccount_spec accounts cur.id
          (AutoSwitch.calculateHealthScore cur) next h
        refine ⟨rfl, cur, rfl, ?_, hspec.1, hspec.2.1, hspec.2.2.1,
          hspec.2.2.2.1, hspec.2.2.2.2⟩
        have hcrit' := hcrit
        simp only [Bool.or_eq_true, decide_eq_true_eq, beq_iff_eq] at hcrit'
        rcases hcrit' with (h1 | h2) | h3
        · exact Or.inl h1
        · exact Or.inr (Or.inl h2)
        · exact Or.inr (Or.inr h3)

/-- C7 concrete scenario: the active account A is critical (score 0), B has
score 70 and status `active`. -/
def c7curAcc : CloudAccount :=
  { id := "A"
    provider := "google"
    email := "a@x"
    status := "active"
    is_active := true }

def c7nextAcc : CloudAccount :=
  { id := "B"
    provider := "google"
    email := "b@x"
    status := "active"
    quota := some { models := [("m", { percentage := 50 })] }
    is_active := false }

/-- Witness for C7: with the setting enabled, critical active account A
(score 0) and candidate B (score 70 > 0 + 5), the switch happens and the
theorem's guarantees hold at this input. -/
theorem c7_hysteresis_guard_witness :
    true = true ∧
    ∃ cur, [c7curAcc, c7nextAcc].find? (fun a => a.is_active) = some cur ∧
      (AutoSwitch.calculateHealthScore cur < 10 ∨
        cur.status = "rate_limited" ∨ cur.status = "error") ∧
      c7nextAcc ∈ [c7curAcc, c7nextAcc] ∧ c7nextAcc.id ≠ cur.id ∧
      c7nextAcc.status = "active" ∧
      AutoSwitch.calculateHealthScore cur + 5 < AutoSwitch.calculateHealthScore c7nextAcc ∧
      (∀ d ∈ [c7curAcc, c7nextAcc], d.id ≠ cur.id → d.status = "active" →
        AutoSwitch.calculateHealthScore cur + 5 < AutoSwitch.calculateHealthScore d →
        AutoSwitch.calculateHealthScore d ≤ AutoSwitch.calculateHealthScore c7nextAcc) := by
  apply c7_hysteresis_guard true [c7curAcc, c7nextAcc] c7nextAcc
  simp [AutoSwitch.checkAndSwitchIfNeeded, AutoSwitch.findBestAccount,
    AutoSwitch.hysteresisCandidates, AutoSwitch.eligibleScored, List.find?,
    c7curAcc, c7nextAcc, AutoSwitch.HYSTERESIS_THRESHOLD,
    AutoSwitch.calculateHealthScore, List.insertionSort, List.orderedInsert]
  norm_num

namespace Cache

/-- One row of the `semantic_cache` table (embedding as an exact-rational
vector; the claims under study do not depend on 32-bit float rounding). -/
structure CacheRow where
  prompt_hash : String
  prompt_text : String
  embedding : List ℚ
  response_text : String
  model : String := ""
deriving DecidableEq, Repr

/-- `SemanticCacheRepo.generateHash`: SHA-256 of the trimmed text. The hash
function itself is an opaque parameter of the model. -/
def generateHash (sha256 : String → String) (text : String) : String :=
  sha256 (trimStr text)

/-- `SemanticCacheRepo.findExact`: index lookup by prompt hash, returning
the stored response text. -/
def findExact (table : List CacheRow) (sha256 : String → String)
    (prompt : String) : Option String :=
  (table.find? (fun r => r.prompt_hash == generateHash sha256 prompt)).map
    (fun r => r.response_text)

/-- `SemanticCacheRepo.cosineSimilarity`: plain dot product (vectors are
assumed unit-normalised; mismatched lengths score 0). -/
def cosineSimilarity (a b : List ℚ) : ℚ :=
  if a.length ≠ b.length then 0
  else (List.zipWith (fun x y => x * y) a b).sum

/-- `SemanticCacheRepo.findSemantic`: return the response of the first row
whose similarity with the query vector reaches the threshold. -/
def findSemantic (table : List CacheRow) (queryEmbedding : List ℚ)
    (threshold : ℚ) : Option String :=
  (table.find?
    (fun r => decide (threshold ≤ cosineSimilarity queryEmbedding r.embedding))).map
    (fun r => r.response_text)

/-- `SemanticCacheManager.findResponse`: exact hit first (JavaScript-truthy
check), then — only if the embedding fetch succeeded — the semantic lookup
with the default threshold 0.97; an embedding failure yields `null`. -/
def findResponse (table : List CacheRow) (sha256 : String → String)
    (prompt : String) (embeddingO : Except Unit (List ℚ)) : Option String :=
  if jsTruthy (findExact table sha256 prompt) then findExact table sha256 prompt
  else
    match embeddingO with
    | .ok emb =>
      if jsTruthy (findSemantic table emb (97 / 100)) then findSemantic table emb (97 / 100)
      else none
    | .error _ => none

/-- C9 concrete store: the first row matches the constant hash but carries
an empty (falsy) response; the second row is a semantic match. -/
def c9rowEmpty : CacheRow :=
  { prompt_hash := "H"
    prompt_text := "p"
    embedding := [0]
    response_text := "" }

def c9rowHit : CacheRow :=
  { prompt_hash := "X"
    prompt_text := "q"
    embedding := [1]
    response_text := "hit" }

end Cache

/-- Counterexample to C9 as stated: an exact hit exists (the trimmed
prompt's hash is in the index) but its stored response is the empty string,
which is falsy — so instead of returning it and preempting semantic search,
the lookup falls through and returns another row's semantically matching
response. -/
theorem c9_counterexample :
    Cache.findExact [Cache.c9rowEmpty, Cache.c9rowHit] (fun _ => "H") "p" = some "" ∧
    Cache.findResponse [Cache.c9rowEmpty, Cache.c9rowHit] (fun _ => "H") "p"
      (.ok [1]) = some "hit" := by
  constructor
  · decide
  · simp only [Cache.findResponse, Cache.findExact, Cache.findSemantic, Cache.generateHash,
      Cache.cosineSimilarity, Cache.c9rowEmpty, Cache.c9rowHit, jsTruthy, List.find?,
      trimStr]
    norm_num
    decide

/-- Claim C9 (amended: the exact hit preempts and is returned when its
stored response is non-empty — a falsy response falls through, and a
semantic hit with an empty response yields `null`): exact-before-semantic
order, the first-row-over-threshold semantics of the vector lookup with
default threshold 0.97, and the null result on embedding failure. -/
theorem c9_cache_lookup (table : List Cache.CacheRow) (sha256 : String → String)
    (prompt : String) :
    (∀ resp, Cache.findExact table sha256 prompt = some resp → resp ≠ "" →
      ∀ o, Cache.findResponse table sha256 prompt o = some resp) ∧
    (∀ q r, Cache.findSemantic table q (97 / 100) = some r ↔
      ∃ pre row suf, table = pre ++ row :: suf ∧
        (97 / 100 : ℚ) ≤ Cache.cosineSimilarity q row.embedding ∧
        row.response_text = r ∧
        ∀ x ∈ pre, Cache.cosineSimilarity q x.embedding < 97 / 100) ∧
    (∀ q r, jsTruthy (Cache.findExact table sha256 prompt) = false →
      Cache.findSemantic table q (97 / 100) = some r → r ≠ "" →
      Cache.findResponse table sha256 prompt (.ok q) = some r) ∧
    (∀ q, jsTruthy (Cache.findExact table sha256 prompt) = false →
      Cache.findSemantic table q (97 / 100) = none →
      Cache.findResponse table sha256 prompt (.ok q) = none) ∧
    (∀ q, jsTruthy (Cache.findExact table sha256 prompt) = false →
      Cache.findSemantic table q (97 / 100) = some "" →
      Cache.findResponse table sha256 prompt (.ok q) = none) ∧
    (jsTruthy (Cache.findExact table sha256 prompt) = false →
      Cache.findResponse table sha256 prompt (.error ()) = none) := by
  refine ⟨?_, ?_, ?_, ?_, ?_, ?_⟩
  · intro resp hex hne o
    have htr : jsTruthy (Cache.findExact table sha256 prompt) = true := by
      rw [hex]
      have : resp.isEmpty = false := by
        by_contra hx
        have hx' : resp.isEmpty = true := by simpa using hx
        exact hne ((String.isEmpty_iff resp).mp hx')
      simp [jsTruthy, this]
    unfold Cache.findResponse
    rw [htr]
    simp [hex]
  · intro q r
    unfold Cache.findSemantic
    constructor
    · intro h
      obtain ⟨row, hrow, hresp⟩ : ∃ row, table.find?
          (fun x => decide ((97/100 : ℚ) ≤ Cache.cosineSimilarity q x.embedding)) = some row ∧
          row.response_text = r := by
        cases hf : table.find?
            (fun x => decide ((97/100 : ℚ) ≤ Cache.cosineSimilarity q x.embedding)) with
        | none => rw [hf] at h; exact absurd h (by simp)
        | some row =>
          rw [hf] at h
          exact ⟨row, rfl, Option.some_inj.mp h⟩
      obtain ⟨hp, pre, suf, hsplit, hpre⟩ := List.find?_eq_some.mp hrow
      refine ⟨pre, row, suf, hsplit, of_decide_eq_true hp, hresp, ?_⟩
      intro x hx
      have := hpre x hx
      have hnot : ¬ ((97/100 : ℚ) ≤ Cache.cosineSimilarity q x.embedding) := by
        simpa using this
      exact lt_of_not_le hnot
    · intro ⟨pre, row, suf, hsplit, hth, hresp, hpre⟩
      have hfind : table.find?
          (fun x => decide ((97/100 : ℚ) ≤ Cache.cosineSimilarity q x.embedding)) = some row := by
        apply List.find?_eq_some.mpr
        refine ⟨decide_eq_true hth, pre, suf, hsplit, ?_⟩
        intro x hx
        simp [lt_iff_not_le.mp (hpre x hx)]
      rw [hfind]
      simp [hresp]
  · intro q r hfalsy hsem hne
    unfold Cache.findResponse
    rw [hfalsy]
    simp only [Bool.false_eq_true, if_false]
    rw [hsem]
    have hie : r.isEmpty = false := by
      by_contra hx
      have hx' : r.isEmpty = true := by simpa using hx
      exact hne ((String.isEmpty_iff r).mp hx')
    simp [jsTruthy, hie]
  · intro q hfalsy hsem
    unfold Cache.findResponse
    rw [hfalsy]
    simp only [Bool.false_eq_true, if_false]
    rw [hsem]
    rfl
  · intro q hfalsy hsem
    unfold Cache.findResponse
    rw [hfalsy]
    simp only [Bool.false_eq_true, if_false]
    rw [hsem]
    simp [jsTruthy, show ("" : String).isEmpty = true from by decide]
  · intro hfalsy
    unfold Cache.findResponse
    rw [hfalsy]
    simp

/-- Witness for C9 (amended): a non-empty exact hit is returned even when
the embedding fetch fails. -/
theorem c9_cache_lookup_witness :
    Cache.findResponse [Cache.c9rowHit] (fun _ => "X") "q" (.error ()) = some "hit" :=
  (c9_cache_lookup [Cache.c9rowHit] (fun _ => "X") "q").1 "hit" (by decide) (by decide)
    (.error ())

namespace Proxy

/-- `ProxyService.shouldRetry`: lower-case the message and look for the
rate-limit text patterns. -/
def shouldRetry (msg : String) : Bool :=
  let l := lowerStr msg
  strIncludes l "429" || strIncludes l "quota" || strIncludes l "limit" ||
    strIncludes l "resource_exhausted"

/-- Outcome of one upstream dispatch inside the retry loop's `try` block. -/
inductive DispatchOutcome where
  | success (resp : String)
  | failure (msg : String)
deriving DecidableEq, Repr

/-- One attempt of the retry loop: the selected account's email and the
dispatch outcome. -/
structure Attempt where
  email : String
  outcome : DispatchOutcome
deriving DecidableEq, Repr

/-- Final outcome of a handler call. -/
inductive ReqResult where
  | ok (resp : String)
  | err (msg : String)
deriving DecidableEq, Repr

/-- `const maxRetries = 3`. -/
def maxRetries : Nat := 3

/-- The retry loop body of `handleAnthropicMessages` /
`handleChatCompletions`: a successful dispatch returns at once; a caught
error records `lastError`, marks the email rate-limited when the message
matches the pattern, and — matching or not — falls through to the next
attempt; after the final attempt the last error is thrown
(`lastError || 'Request failed after retries'`). -/
def retryLoopAux : List Attempt → List String → Option String → ReqResult × List String
  | [], marked, lastError =>
    (ReqResult.err (lastError.getD "Request failed after retries"), marked)
  | att :: rest, marked, _lastError =>
    match att.outcome with
    | .success r => (ReqResult.ok r, marked)
    | .failure m =>
      retryLoopAux rest (if shouldRetry m then marked ++ [att.email] else marked) (some m)

/-- A handler call: run the retry loop over at most `maxRetries` attempts. -/
def handleRequest (attempts : List Attempt) : ReqResult × List String :=
  retryLoopAux (attempts.take maxRetries) [] none

end Proxy

/-- Counterexample to C4 as stated: the first attempt fails with an error
whose message does not match the rate-limit pattern, yet the loop does not
terminate — the second attempt runs and its success is returned. -/
theorem c4_counterexample :
    Proxy.shouldRetry "connection reset" = false ∧
    Proxy.handleRequest
      [{ email := "a", outcome := .failure "connection reset" },
       { email := "b", outcome := .success "ok" }]
      = (Proxy.ReqResult.ok "ok", []) := by
  constructor
  · decide
  · decide

/-- Claim C4 (amended: *every* caught dispatch error — rate-limit-shaped or
not — proceeds to the next retry attempt; rate-limit-shaped errors
additionally mark the selected email): upstream dispatch is attempted at
most 3 times (attempts beyond the third are never consulted), exactly the
attempts failing with a message matching `/429|quota|limit|resource_exhausted/i`
mark their email, and after three failures the last error message is
surfaced; a success returns immediately. -/
theorem c4_retry_loop (e0 e1 e2 m0 m1 m2 : String) (rest : List Proxy.Attempt) :
    (Proxy.handleRequest
      ({ email := e0, outcome := .failure m0 } :: { email := e1, outcome := .failure m1 }
        :: { email := e2, outcome := .failure m2 } :: rest)
      = (Proxy.ReqResult.err m2,
         (if Proxy.shouldRetry m0 then [e0] else []) ++
         (if Proxy.shouldRetry m1 then [e1] else []) ++
         (if Proxy.shouldRetry m2 then [e2] else []))) ∧
    (∀ resp rest2, Proxy.handleRequest
      ({ email := e0, outcome := .failure m0 } :: { email := e1, outcome := .success resp }
        :: rest2)
      = (Proxy.ReqResult.ok resp, if Proxy.shouldRetry m0 then [e0] else [])) := by
  constructor
  · by_cases h0 : Proxy.shouldRetry m0 = true <;>
      by_cases h1 : Proxy.shouldRetry m1 = true <;>
        by_cases h2 : Proxy.shouldRetry m2 = true <;>
          simp [Proxy.handleRequest, Proxy.retryLoopAux, Proxy.maxRetries,
            List.take, h0, h1, h2]
  · intro resp rest2
    by_cases h0 : Proxy.shouldRetry m0 = true <;>
      simp [Proxy.handleRequest, Proxy.retryLoopAux, Proxy.maxRetries, List.take, h0]

end Antigravity
